import Mathlib

/-!
Verification development for the ocireg-mcp repository: a shallow embedding
of its OCI registry client (`pkg/oci/client.go`), its MCP tool dispatcher
(`pkg/mcp/tools.go`) and the entry-point helpers of package `main`
(credential resolution from request headers and listen-port resolution),
together with theorems settling the specification claims.

Strings are manipulated through their underlying character lists so that
all definitions evaluate by kernel reduction.  The external libraries
(go-containerregistry, mcp-go, encoding/json, strconv, time) are embedded
as oracles (`RegistryLib`) or as executable models of the specific entry
points the repository uses (`escapeString`, `goAtoi`, `formatGoTime`).
-/

deriving instance DecidableEq for Except

/-- Boolean test that `p` is a prefix of `s`, via the character lists
(model of Go `strings.HasPrefix`). -/
def strStartsWith (p s : String) : Bool := p.data.isPrefixOf s.data

/-- Boolean substring test used to state "the error message contains ...". -/
def charsContain (pat : List Char) : List Char → Bool
  | [] => pat.isEmpty
  | c :: rest => pat.isPrefixOf (c :: rest) || charsContain pat rest

/-- String-level substring test: `strContains s pat` holds when `pat`
occurs contiguously inside `s`. -/
def strContains (s pat : String) : Bool := charsContain pat.data s.data

namespace oci

/-- Durations are modelled in nanoseconds, as in Go `time.Duration`. -/
def timeSecond : Nat := 1000000000

/-- The fixed per-call timeout of `pkg/oci/client.go`: `30 * time.Second`. -/
def defaultTimeout : Nat := 30 * timeSecond

/-- Model of a Go `context.Context`: only the absolute deadline (in
nanoseconds) is relevant to this repository. -/
structure GoCtx where
  deadline : Option Nat
deriving DecidableEq

/-- Model of `context.Background()`: no deadline. -/
def GoCtx.background : GoCtx := ⟨none⟩

/-- Model of `context.WithTimeout(parent, dur)` evaluated at absolute time
`now`: the deadline is `now + dur`, capped by any earlier parent deadline. -/
def GoCtx.withTimeout (parent : GoCtx) (now dur : Nat) : GoCtx :=
  match parent.deadline with
  | none => ⟨some (now + dur)⟩
  | some d => ⟨some (min d (now + dur))⟩

/-- Model of go-containerregistry `authn.Authenticator` values used here. -/
inductive Authenticator where
  | basic (username password : String)
  | bearer (token : String)
deriving DecidableEq

/-- Model of the go-containerregistry `remote.Option` values this
repository constructs. -/
inductive RemoteOption where
  | withAuth (a : Authenticator)
  | withAuthFromKeychain
deriving DecidableEq

/-- `WithBasicAuth` from the oci package: `remote.WithAuth(&authn.Basic{...})`. -/
def WithBasicAuth (username password : String) : RemoteOption :=
  .withAuth (.basic username password)

/-- `WithBearerToken` from the oci package: `remote.WithAuth(&authn.Bearer{...})`. -/
def WithBearerToken (token : String) : RemoteOption :=
  .withAuth (.bearer token)

/-- `WithDefaultKeychain` from the oci package:
`remote.WithAuthFromKeychain(authn.DefaultKeychain)`. -/
def WithDefaultKeychain : RemoteOption :=
  .withAuthFromKeychain

/-- `oci.Client`: a list of remote options, as in `client.go`. -/
structure Client where
  options : List RemoteOption
deriving DecidableEq

/-- `oci.NewClient`. -/
def NewClient (options : List RemoteOption) : Client := ⟨options⟩

/-- Model of a Go `time.Time` as far as this repository observes it:
calendar fields plus the zone offset (`none` means UTC, rendered `Z`;
`some (neg, h, m)` is a `±hh:mm` offset). -/
structure GoTime where
  year : Nat
  month : Nat
  day : Nat
  hour : Nat
  minute : Nat
  second : Nat
  tz : Option (Bool × Nat × Nat)
deriving DecidableEq

/-- A manifest descriptor (`v1.Descriptor`): the fields read by this
repository. -/
structure Descriptor where
  digest : String
  size : Int
deriving DecidableEq

/-- `v1.Manifest`: the fields read by this repository. -/
structure Manifest where
  config : Descriptor
  layers : List Descriptor
deriving DecidableEq

/-- `v1.ConfigFile`: the fields read by this repository. -/
structure ConfigFile where
  architecture : String
  os : String
  created : GoTime
deriving DecidableEq

/-- A fetched `v1.Image` handle: its `Manifest()` and `ConfigFile()`
methods may each fail (they decode lazily fetched bytes). -/
structure Image where
  manifestResult : Except String Manifest
  configFileResult : Except String ConfigFile
deriving DecidableEq

/-- Oracle for the external go-containerregistry library: reference and
repository parsing, and the two remote entry points the repository calls.
The remote calls receive the client options and the request context. -/
structure RegistryLib where
  parseReference : String → Except String String
  remoteImage : List RemoteOption → GoCtx → String → Except String Image
  newRepository : String → Except String String
  remoteList : List RemoteOption → GoCtx → String → Except String (List String)

/-- Trace entry recording one outbound remote call, with the options and
context it was issued under (kept for verification of the claims about
registry traffic). -/
inductive RegistryCall where
  | image (options : List RemoteOption) (ctx : GoCtx) (ref : String)
  | list (options : List RemoteOption) (ctx : GoCtx) (repo : String)
deriving DecidableEq

/-- The context a trace entry was issued under. -/
def RegistryCall.ctxOf : RegistryCall → GoCtx
  | .image _ c _ => c
  | .list _ c _ => c

/-- `Client.GetImage` from `pkg/oci/client.go`: parse the reference
(`parsing image reference: %w` on failure), build a fresh 30-second
context from `context.Background()` — the caller context is not used —
and fetch (`fetching image: %w` on failure).  The second component is the
trace of outbound remote calls. -/
def GetImage (lib : RegistryLib) (c : Client) (_ctx : GoCtx) (now : Nat)
    (imageRef : String) : Except String Image × List RegistryCall :=
  match lib.parseReference imageRef with
  | .error e => (.error ("parsing image reference: " ++ e), [])
  | .ok ref =>
      let reqCtx := GoCtx.withTimeout GoCtx.background now defaultTimeout
      match lib.remoteImage c.options reqCtx ref with
      | .error e => (.error ("fetching image: " ++ e), [.image c.options reqCtx ref])
      | .ok img => (.ok img, [.image c.options reqCtx ref])

/-- `Client.GetImageManifest`: builds its own fresh 30-second context,
calls `GetImage` with it, then decodes the manifest
(`getting manifest: %w` on failure). -/
def GetImageManifest (lib : RegistryLib) (c : Client) (_ctx : GoCtx) (now : Nat)
    (imageRef : String) : Except String Manifest × List RegistryCall :=
  let reqCtx := GoCtx.withTimeout GoCtx.background now defaultTimeout
  match GetImage lib c reqCtx now imageRef with
  | (.error e, tr) => (.error e, tr)
  | (.ok img, tr) =>
      match img.manifestResult with
      | .error e => (.error ("getting manifest: " ++ e), tr)
      | .ok manifest => (.ok manifest, tr)

/-- `Client.GetImageConfig`: same shape as `GetImageManifest`, decoding the
config file (`getting config: %w` on failure). -/
def GetImageConfig (lib : RegistryLib) (c : Client) (_ctx : GoCtx) (now : Nat)
    (imageRef : String) : Except String ConfigFile × List RegistryCall :=
  let reqCtx := GoCtx.withTimeout GoCtx.background now defaultTimeout
  match GetImage lib c reqCtx now imageRef with
  | (.error e, tr) => (.error e, tr)
  | (.ok img, tr) =>
      match img.configFileResult with
      | .error e => (.error ("getting config: " ++ e), tr)
      | .ok config => (.ok config, tr)

/-- `Client.ListTags`: parse the repository name
(`parsing repository name: %w` on failure), build a fresh 30-second
context from `context.Background()`, and list
(`listing tags: %w` on failure). -/
def ListTags (lib : RegistryLib) (c : Client) (_ctx : GoCtx) (now : Nat)
    (repoName : String) : Except String (List String) × List RegistryCall :=
  match lib.newRepository repoName with
  | .error e => (.error ("parsing repository name: " ++ e), [])
  | .ok repo =>
      let reqCtx := GoCtx.withTimeout GoCtx.background now defaultTimeout
      match lib.remoteList c.options reqCtx repo with
      | .error e => (.error ("listing tags: " ++ e), [.list c.options reqCtx repo])
      | .ok tags => (.ok tags, [.list c.options reqCtx repo])

/-- Zero-pad a number to two decimal digits (Go layout fields `01`..`05`). -/
def pad2 (n : Nat) : String := if n < 10 then "0" ++ toString n else toString n

/-- Zero-pad a year to four decimal digits (Go layout field `2006`,
for years below 10000). -/
def pad4 (n : Nat) : String :=
  if n < 10 then "000" ++ toString n
  else if n < 100 then "00" ++ toString n
  else if n < 1000 then "0" ++ toString n
  else toString n

/-- The numeric zone part of Go layout `Z07:00`: `Z` for UTC, else a
signed `hh:mm` offset. -/
def tzPart : Option (Bool × Nat × Nat) → String
  | none => "Z"
  | some (neg, h, m) => (if neg then "-" else "+") ++ pad2 h ++ ":" ++ pad2 m

/-- Model of `t.Format("2006-01-02T15:04:05Z07:00")` — the layout used by
`GetImageInfo`, which is Go's `time.RFC3339` constant. -/
def formatGoTime (t : GoTime) : String :=
  pad4 t.year ++ "-" ++ pad2 t.month ++ "-" ++ pad2 t.day ++ "T" ++
    pad2 t.hour ++ ":" ++ pad2 t.minute ++ ":" ++ pad2 t.second ++ tzPart t.tz

end oci

/-- Byte-order comparison of character lists (Go's `<` on strings, which
is what `encoding/json` sorts map keys by). -/
def lexLe : List Char → List Char → Bool
  | [], _ => true
  | _ :: _, [] => false
  | a :: as, b :: bs =>
      if a.toNat < b.toNat then true
      else if b.toNat < a.toNat then false
      else lexLe as bs

/-- String comparison via `lexLe`. -/
def strLe (a b : String) : Bool := lexLe a.data b.data

namespace mcp

/-- The JSON values occurring in the `get_image_info` summary object. -/
inductive JVal where
  | jstr (s : String)
  | jint (n : Int)
deriving DecidableEq

/-- Lower-case hexadecimal digit, as printed by `encoding/json`. -/
def hexDigitChar (n : Nat) : Char :=
  if n < 10 then Char.ofNat (48 + n) else Char.ofNat (87 + n)

/-- Model of `encoding/json` string escaping (with its HTML escaping of
`<`, `>`, `&` and its ` `/` ` special cases). -/
def escapeChar (c : Char) : List Char :=
  if c = '"' then ['\\', '"']
  else if c = '\\' then ['\\', '\\']
  else if c = '\n' then ['\\', 'n']
  else if c = '\r' then ['\\', 'r']
  else if c = '\t' then ['\\', 't']
  else if c = '<' then ['\\', 'u', '0', '0', '3', 'c']
  else if c = '>' then ['\\', 'u', '0', '0', '3', 'e']
  else if c = '&' then ['\\', 'u', '0', '0', '2', '6']
  else if c.toNat < 32 then
    ['\\', 'u', '0', '0', hexDigitChar (c.toNat / 16), hexDigitChar (c.toNat % 16)]
  else if c.toNat = 8232 then ['\\', 'u', '2', '0', '2', '8']
  else if c.toNat = 8233 then ['\\', 'u', '2', '0', '2', '9']
  else [c]

/-- JSON-escape a whole string. -/
def escapeString (s : String) : String :=
  ⟨s.data.foldr (fun c acc => escapeChar c ++ acc) []⟩

/-- Render one JSON scalar. -/
def renderJVal : JVal → String
  | .jstr s => "\"" ++ escapeString s ++ "\""
  | .jint n => toString n

/-- Insert an entry into a key-sorted entry list. -/
def insortEntry (p : String × JVal) :
    List (String × JVal) → List (String × JVal)
  | [] => [p]
  | q :: rest => if strLe p.1 q.1 then p :: q :: rest else q :: insortEntry p rest

/-- Sort entries by key, as `encoding/json` sorts Go map keys. -/
def sortEntries : List (String × JVal) → List (String × JVal)
  | [] => []
  | p :: rest => insortEntry p (sortEntries rest)

/-- Join rendered lines with a separator. -/
def joinWith (sep : String) : List String → String
  | [] => ""
  | [x] => x
  | x :: y :: rest => x ++ sep ++ joinWith sep (y :: rest)

/-- Model of `json.MarshalIndent(m, "", "  ")` for a flat string-keyed
map: keys in byte order, two-space indent. -/
def renderObjIndent (m : List (String × JVal)) : String :=
  let entries := sortEntries m
  if entries.isEmpty then "\x7b\x7d"
  else
    "\x7b\n" ++
      joinWith ",\n"
        (entries.map (fun p => "  \"" ++ escapeString p.1 ++ "\": " ++ renderJVal p.2)) ++
      "\n\x7d"

/-- Model of `json.MarshalIndent(tags, "", "  ")` for a string slice:
elements in slice order, two-space indent. -/
def renderTagsIndent (tags : List String) : String :=
  if tags.isEmpty then "[]"
  else
    "[\n" ++
      joinWith ",\n" (tags.map (fun t => "  \"" ++ escapeString t ++ "\"")) ++
      "\n]"

/-- `mcp.CallToolResult`, reduced to what the repository sets: the error
flag and the single text content item. -/
structure CallToolResult where
  isError : Bool
  text : String
deriving DecidableEq

/-- `mcp.NewToolResultError`. -/
def NewToolResultError (msg : String) : CallToolResult := ⟨true, msg⟩

/-- `mcp.NewToolResultErrorFromErr(label, err)`: the text is
`label
++ ": " ++ err` (mcp-go formats it with `"%s: %s"`). -/
def NewToolResultErrorFromErr (label err : String) : CallToolResult :=
  ⟨true, label ++ ": " ++ err⟩

/-- `mcp.NewToolResultText`. -/
def NewToolResultText (t : String) : CallToolResult := ⟨false, t⟩

/-- An inbound tool request: `mcp.ParseString(req, key, "")` yields the
string argument, or `""` when absent or not a string. -/
structure CallToolRequest where
  parseString : String → String

/-- What a handler returns: the tool result, the Go-level `error` return
value, and the trace of outbound registry calls made while handling. -/
structure HandlerOutput where
  result : CallToolResult
  goError : Option String
  calls : List oci.RegistryCall
deriving DecidableEq

/-- The summary map literal built by `GetImageInfo` in `tools.go`, in
source order. -/
def imageInfoResult (manifest : oci.Manifest) (config : oci.ConfigFile) :
    List (String × JVal) :=
  [("digest", .jstr manifest.config.digest),
   ("size", .jint manifest.config.size),
   ("architecture", .jstr config.architecture),
   ("os", .jstr config.os),
   ("created", .jstr (oci.formatGoTime config.created)),
   ("layers", .jint (manifest.layers.length : Int))]

/-- Handler for `get_image_info` (`tools.go`).  `marshalInfo` stands for
`json.MarshalIndent` on the summary map. -/
def GetImageInfo (lib : oci.RegistryLib) (c : oci.Client)
    (marshalInfo : List (String × JVal) → Except String String)
    (ctx : oci.GoCtx) (now : Nat) (req : CallToolRequest) : HandlerOutput :=
  let imageRef := req.parseString "image_ref"
  if imageRef = "" then
    ⟨NewToolResultError "image_ref is required", none, []⟩
  else
    match oci.GetImage lib c ctx now imageRef with
    | (.error e, tr) => ⟨NewToolResultErrorFromErr "failed to get image" e, none, tr⟩
    | (.ok img, tr) =>
        match img.manifestResult with
        | .error e => ⟨NewToolResultErrorFromErr "failed to get manifest" e, none, tr⟩
        | .ok manifest =>
            match img.configFileResult with
            | .error e => ⟨NewToolResultErrorFromErr "failed to get config" e, none, tr⟩
            | .ok config =>
                match marshalInfo (imageInfoResult manifest config) with
                | .error e =>
                    ⟨NewToolResultErrorFromErr "failed to marshal result" e, none, tr⟩
                | .ok resultJSON =>
                    ⟨NewToolResultText ("Image information for " ++ imageRef ++
                      ":\n\n```json\n" ++ resultJSON ++ "\n```"), none, tr⟩

/-- Handler for `list_tags` (`tools.go`).  `marshalTags` stands for
`json.MarshalIndent` on the tag slice. -/
def ListTags (lib : oci.RegistryLib) (c : oci.Client)
    (marshalTags : List String → Except String String)
    (ctx : oci.GoCtx) (now : Nat) (req : CallToolRequest) : HandlerOutput :=
  let repository := req.parseString "repository"
  if repository = "" then
    ⟨NewToolResultError "repository is required", none, []⟩
  else
    match oci.ListTags lib c ctx now repository with
    | (.error e, tr) => ⟨NewToolResultErrorFromErr "failed to list tags" e, none, tr⟩
    | (.ok tags, tr) =>
        if tags.length = 0 then
          ⟨NewToolResultText ("No tags found for repository " ++ repository), none, tr⟩
        else
          match marshalTags tags with
          | .error e => ⟨NewToolResultErrorFromErr "failed to marshal result" e, none, tr⟩
          | .ok resultJSON =>
              ⟨NewToolResultText ("Tags for " ++ repository ++ ":\n\n```json\n" ++
                resultJSON ++ "\n```"), none, tr⟩

/-- Handler for `get_image_manifest` (`tools.go`). -/
def GetImageManifest (lib : oci.RegistryLib) (c : oci.Client)
    (marshalManifest : oci.Manifest → Except String String)
    (ctx : oci.GoCtx) (now : Nat) (req : CallToolRequest) : HandlerOutput :=
  let imageRef := req.parseString "image_ref"
  if imageRef = "" then
    ⟨NewToolResultError "image_ref is required", none, []⟩
  else
    match oci.GetImageManifest lib c ctx now imageRef with
    | (.error e, tr) => ⟨NewToolResultErrorFromErr "failed to get manifest" e, none, tr⟩
    | (.ok manifest, tr) =>
        match marshalManifest manifest with
        | .error e => ⟨NewToolResultErrorFromErr "failed to marshal result" e, none, tr⟩
        | .ok resultJSON =>
            ⟨NewToolResultText ("Manifest for " ++ imageRef ++ ":\n\n```json\n" ++
              resultJSON ++ "\n```"), none, tr⟩

/-- Handler for `get_image_config` (`tools.go`). -/
def GetImageConfig (lib : oci.RegistryLib) (c : oci.Client)
    (marshalConfig : oci.ConfigFile → Except String String)
    (ctx : oci.GoCtx) (now : Nat) (req : CallToolRequest) : HandlerOutput :=
  let imageRef := req.parseString "image_ref"
  if imageRef = "" then
    ⟨NewToolResultError "image_ref is required", none, []⟩
  else
    match oci.GetImageConfig lib c ctx now imageRef with
    | (.error e, tr) => ⟨NewToolResultErrorFromErr "failed to get config" e, none, tr⟩
    | (.ok config, tr) =>
        match marshalConfig config with
        | .error e => ⟨NewToolResultErrorFromErr "failed to marshal result" e, none, tr⟩
        | .ok resultJSON =>
            ⟨NewToolResultText ("Config for " ++ imageRef ++ ":\n\n```json\n" ++
              resultJSON ++ "\n```"), none, tr⟩

/-- The concrete marshaller used on the success path of `get_image_info`
(`json.MarshalIndent` never fails on this map of strings and integers). -/
def goMarshalInfo (m : List (String × JVal)) : Except String String :=
  .ok (renderObjIndent m)

/-- The concrete marshaller used on the success path of `list_tags`. -/
def goMarshalTags (tags : List String) : Except String String :=
  .ok (renderTagsIndent tags)

end mcp

namespace mainpkg

/-- Inbound HTTP headers: `http.Header.Get` returns `""` for an absent
key. -/
structure Headers where
  get : String → String

/-- The process environment: `os.Getenv` returns `""` for an unset
variable. -/
structure ProcEnv where
  getenv : String → String

/-- `createOCIClientFromHeaders` from package `main`: pick exactly one
authentication strategy, first match wins — `Authorization: Bearer ...`
header, then `OCI_TOKEN`, then `OCI_USERNAME`/`OCI_PASSWORD`, then the
default keychain.  Returns the client and the diagnostic log line naming
the chosen strategy.  The bearer prefix constant is `"Bearer "`. -/
def createOCIClientFromHeaders (headers : Headers) (env : ProcEnv) :
    oci.Client × String :=
  let authHeader := headers.get "Authorization"
  if authHeader ≠ "" ∧ strStartsWith "Bearer " authHeader then
    let token := authHeader.drop "Bearer ".length
    (oci.NewClient [oci.WithBearerToken token],
     "Using bearer token from Authorization header for OCI registry")
  else
    let token := env.getenv "OCI_TOKEN"
    let username := env.getenv "OCI_USERNAME"
    let password := env.getenv "OCI_PASSWORD"
    if token ≠ "" then
      (oci.NewClient [oci.WithBearerToken token],
       "Using bearer token from OCI_TOKEN environment variable for OCI registry")
    else if username ≠ "" ∧ password ≠ "" then
      (oci.NewClient [oci.WithBasicAuth username password],
       "Using username/password authentication for OCI registry")
    else
      (oci.NewClient [oci.WithDefaultKeychain],
       "Using default keychain for OCI registry authentication")

/-- `validatePort`: a port is valid when between 0 and 65535. -/
def validatePort (port : Int) : Bool := 0 ≤ port ∧ port ≤ 65535

/-- Model of Go `strconv.Atoi`: optional sign, decimal digits, 64-bit
range; anything else is an error. -/
def goAtoi (s : String) : Except String Int :=
  match s.data with
  | [] => .error ("strconv.Atoi: parsing \"\": invalid syntax")
  | c :: rest =>
      let signed : Bool × List Char :=
        if c = '+' then (false, rest)
        else if c = '-' then (true, rest)
        else (false, c :: rest)
      let ds := signed.2
      if ds.isEmpty then .error ("strconv.Atoi: parsing " ++ s ++ ": invalid syntax")
      else if ds.all (fun d => 48 ≤ d.toNat ∧ d.toNat ≤ 57) then
        let n : Nat := ds.foldl (fun acc d => acc * 10 + (d.toNat - 48)) 0
        let v : Int := if signed.1 then -(n : Int) else (n : Int)
        if v < -(2 ^ 63) ∨ (2 ^ 63 - 1 : Int) < v then
          .error ("strconv.Atoi: parsing " ++ s ++ ": value out of range")
        else .ok v
      else .error ("strconv.Atoi: parsing " ++ s ++ ": invalid syntax")

/-- `getMCPServerPort` from package `main`: the port from `MCP_PORT`, or
8080 when unset/empty (silently) or when non-numeric or out of range
(with a log line, returned as the second component). -/
def getMCPServerPort (env : ProcEnv) : Int × Option String :=
  let defaultPort : Int := 8080
  let envPort := env.getenv "MCP_PORT"
  if envPort = "" then (defaultPort, none)
  else
    match goAtoi envPort with
    | .error _ =>
        (defaultPort, some ("Invalid MCP_PORT value: " ++ envPort ++
          " (must be a valid number), using default port 8080"))
    | .ok port =>
        if validatePort port then (port, none)
        else
          (defaultPort, some ("Invalid MCP_PORT value: " ++ envPort ++
            " (must be between 0 and 65535), using default port 8080"))

end mainpkg

/-- Decimal digit test on a character. -/
def isDigitCh (c : Char) : Bool := 48 ≤ c.toNat ∧ c.toNat ≤ 57

/-- Specification-side definition (shape of an RFC3339 numeric offset or
`Z`), used to state that the formatted creation timestamp is RFC3339. -/
def tzShape : List Char → Bool
  | ['Z'] => true
  | [sign, h1, h2, c, m1, m2] =>
      (sign = '+' ∨ sign = '-') ∧ c = ':' ∧
        isDigitCh h1 ∧ isDigitCh h2 ∧ isDigitCh m1 ∧ isDigitCh m2
  | _ => false

/-- Specification-side definition: the shape of an RFC3339 `date-time`
(`YYYY-MM-DDThh:mm:ss` followed by `Z` or a signed `hh:mm` offset). -/
def rfc3339Shape (s : String) : Bool :=
  match s.data with
  | y1 :: y2 :: y3 :: y4 :: sep1 :: mo1 :: mo2 :: sep2 :: da1 :: da2 :: tt ::
      h1 :: h2 :: sep3 :: mi1 :: mi2 :: sep4 :: s1 :: s2 :: tz =>
      isDigitCh y1 ∧ isDigitCh y2 ∧ isDigitCh y3 ∧ isDigitCh y4 ∧ sep1 = '-' ∧
        isDigitCh mo1 ∧ isDigitCh mo2 ∧ sep2 = '-' ∧ isDigitCh da1 ∧ isDigitCh da2 ∧
        tt = 'T' ∧ isDigitCh h1 ∧ isDigitCh h2 ∧ sep3 = ':' ∧ isDigitCh mi1 ∧
        isDigitCh mi2 ∧ sep4 = ':' ∧ isDigitCh s1 ∧ isDigitCh s2 ∧ tzShape tz
  | _ => false

/-- Bounds on a `GoTime` under which every layout field prints its
intended fixed width (any real `time.Time` satisfies them). -/
def oci.GoTime.fieldsInRange (t : oci.GoTime) : Bool :=
  decide (t.year < 10000) && decide (t.month < 100) && decide (t.day < 100) &&
    decide (t.hour < 100) && decide (t.minute < 100) && decide (t.second < 100) &&
    (match t.tz with
     | none => true
     | some (_, h, m) => decide (h < 100) && decide (m < 100))

/-- The most-significant-first decimal digit characters of a natural
number; reference function used to reason about `Nat.repr` (which the
padding helpers of the time-format model are built on). -/
def natDigits (n : Nat) : List Char :=
  if _h : n < 10 then [Nat.digitChar n]
  else natDigits (n / 10) ++ [Nat.digitChar (n % 10)]
decreasing_by exact Nat.div_lt_self (by omega) (by omega)

/-- A sample manifest used to exercise the theorems on concrete input. -/
def sampleManifest : oci.Manifest :=
  ⟨⟨"sha256:abc123", 1234⟩, [⟨"sha256:layer1", 10⟩, ⟨"sha256:layer2", 20⟩]⟩

/-- A sample config file used to exercise the theorems on concrete input. -/
def sampleConfig : oci.ConfigFile := ⟨"amd64", "linux", ⟨2021, 5, 4, 3, 2, 1, none⟩⟩

/-- A sample fetched image whose manifest and config both decode. -/
def sampleImage : oci.Image := ⟨.ok sampleManifest, .ok sampleConfig⟩

/-- A registry oracle on which every operation succeeds. -/
def libOk : oci.RegistryLib :=
  ⟨fun r => .ok r, fun _ _ _ => .ok sampleImage,
   fun r => .ok r, fun _ _ _ => .ok ["1.0", "latest"]⟩

/-- A registry oracle whose parsers reject every input. -/
def libParseFail : oci.RegistryLib :=
  ⟨fun _ => .error "could not parse reference", fun _ _ _ => .error "unreachable",
   fun _ => .error "could not parse repository", fun _ _ _ => .error "unreachable"⟩

/-- A registry oracle that parses but fails on every remote call. -/
def libRemoteFail : oci.RegistryLib :=
  ⟨fun r => .ok r, fun _ _ _ => .error "connection refused",
   fun r => .ok r, fun _ _ _ => .error "connection refused"⟩

/-- A registry oracle for a repository with no tags. -/
def libEmptyTags : oci.RegistryLib :=
  ⟨fun r => .ok r, fun _ _ _ => .ok sampleImage, fun r => .ok r, fun _ _ _ => .ok []⟩

/-- A request carrying exactly one string argument. -/
def reqWith (key v : String) : mcp.CallToolRequest :=
  ⟨fun k => if k = key then v else ""⟩

/-- A request with no arguments. -/
def emptyReq : mcp.CallToolRequest := ⟨fun _ => ""⟩

/-- Headers carrying exactly an `Authorization` value. -/
def sampleHeaders (a : String) : mainpkg.Headers :=
  ⟨fun k => if k = "Authorization" then a else ""⟩

/-- An environment carrying the three credential variables. -/
def sampleEnv (t u pw : String) : mainpkg.ProcEnv :=
  ⟨fun k =>
    if k = "OCI_TOKEN" then t
    else if k = "OCI_USERNAME" then u
    else if k = "OCI_PASSWORD" then pw
    else ""⟩

/-- An environment carrying exactly `MCP_PORT`. -/
def portEnv (v : String) : mainpkg.ProcEnv :=
  ⟨fun k => if k = "MCP_PORT" then v else ""⟩

/-!  Theorems.  First the generic string lemmas, then one theorem (plus
witness) per specification claim. -/

theorem charsContain_of_isPrefixOf {pat l : List Char}
    (h : pat.isPrefixOf l = true) : charsContain pat l = true := by
  cases l with
  | nil =>
      cases pat with
      | nil => rfl
      | cons a as => simp [List.isPrefixOf] at h
  | cons c rest => simp [charsContain, h]

theorem strContains_of_startsWith {s pat : String}
    (h : strStartsWith pat s = true) : strContains s pat = true :=
  charsContain_of_isPrefixOf h

theorem strStartsWith_append (pat rest : String) :
    strStartsWith pat (pat ++ rest) = true := by
  show (pat.data.isPrefixOf (pat ++ rest).data) = true
  rw [String.data_append]
  exact List.isPrefixOf_iff_prefix.mpr (List.prefix_append pat.data rest.data)

theorem strContains_append_left (pat rest : String) :
    strContains (pat ++ rest) pat = true :=
  strContains_of_startsWith (strStartsWith_append pat rest)

theorem strStartsWith_ne_empty {p s : String}
    (hp : p.data ≠ []) (h : strStartsWith p s = true) : s ≠ "" := by
  intro hs
  subst hs
  cases hd : p.data with
  | nil => exact hp hd
  | cons a as =>
      have : p.data.isPrefixOf ("" : String).data = true := h
      rw [hd] at this
      simp [List.isPrefixOf] at this

/-- Claim C1: credential resolution selects exactly one strategy per
request by fixed precedence, first match wins: a `Bearer `-prefixed
`Authorization` header gives a bearer strategy on the stripped remainder;
else a non-empty `OCI_TOKEN` gives a bearer strategy; else non-empty
`OCI_USERNAME` and `OCI_PASSWORD` give a basic strategy; else the default
credential store.  In particular the header beats environment
credentials. -/
theorem credential_resolution_precedence
    (headers : mainpkg.Headers) (env : mainpkg.ProcEnv) :
    (strStartsWith "Bearer " (headers.get "Authorization") = true →
      mainpkg.createOCIClientFromHeaders headers env =
        (oci.NewClient
            [oci.WithBearerToken ((headers.get "Authorization").drop "Bearer ".length)],
         "Using bearer token from Authorization header for OCI registry"))
  ∧ (strStartsWith "Bearer " (headers.get "Authorization") = false →
      env.getenv "OCI_TOKEN" ≠ "" →
      mainpkg.createOCIClientFromHeaders headers env =
        (oci.NewClient [oci.WithBearerToken (env.getenv "OCI_TOKEN")],
         "Using bearer token from OCI_TOKEN environment variable for OCI registry"))
  ∧ (strStartsWith "Bearer " (headers.get "Authorization") = false →
      env.getenv "OCI_TOKEN" = "" →
      env.getenv "OCI_USERNAME" ≠ "" → env.getenv "OCI_PASSWORD" ≠ "" →
      mainpkg.createOCIClientFromHeaders headers env =
        (oci.NewClient
            [oci.WithBasicAuth (env.getenv "OCI_USERNAME") (env.getenv "OCI_PASSWORD")],
         "Using username/password authentication for OCI registry"))
  ∧ (strStartsWith "Bearer " (headers.get "Authorization") = false →
      env.getenv "OCI_TOKEN" = "" →
      (env.getenv "OCI_USERNAME" = "" ∨ env.getenv "OCI_PASSWORD" = "") →
      mainpkg.createOCIClientFromHeaders headers env =
        (oci.NewClient [oci.WithDefaultKeychain],
         "Using default keychain for OCI registry authentication")) := by
  refine ⟨?_, ?_, ?_, ?_⟩
  · intro h
    have hne : headers.get "Authorization" ≠ "" :=
      strStartsWith_ne_empty (by decide) h
    simp [mainpkg.createOCIClientFromHeaders, hne, h]
  · intro h htok
    simp [mainpkg.createOCIClientFromHeaders, h, htok]
  · intro h htok huser hpass
    simp [mainpkg.createOCIClientFromHeaders, h, htok, huser, hpass]
  · intro h htok hup
    rcases hup with hu | hp
    · simp [mainpkg.createOCIClientFromHeaders, h, htok, hu]
    · simp [mainpkg.createOCIClientFromHeaders, h, htok, hp]

/-- Witness for C1 at a concrete input: with both an
`Authorization: Bearer tok123` header and a full set of environment
credentials, the header's token wins. -/
theorem credential_resolution_precedence_witness :
    strStartsWith "Bearer " ((sampleHeaders "Bearer tok123").get "Authorization") = true ∧
    mainpkg.createOCIClientFromHeaders (sampleHeaders "Bearer tok123")
        (sampleEnv "envtok" "user" "pw") =
      (oci.NewClient
          [oci.WithBearerToken
            (((sampleHeaders "Bearer tok123").get "Authorization").drop "Bearer ".length)],
       "Using bearer token from Authorization header for OCI registry") :=
  ⟨by decide,
   (credential_resolution_precedence (sampleHeaders "Bearer tok123")
      (sampleEnv "envtok" "user" "pw")).1 (by decide)⟩

/-- Claim C10: an `Authorization` header that is present but not
`Bearer `-prefixed is ignored entirely — resolution behaves exactly as if
the header were absent, so it proceeds through the environment tiers. -/
theorem non_bearer_authorization_header_ignored
    (g : String → String) (env : mainpkg.ProcEnv)
    (_hpresent : g "Authorization" ≠ "")
    (hnb : strStartsWith "Bearer " (g "Authorization") = false) :
    mainpkg.createOCIClientFromHeaders ⟨g⟩ env =
      mainpkg.createOCIClientFromHeaders
        ⟨fun k => if k = "Authorization" then "" else g k⟩ env := by
  simp [mainpkg.createOCIClientFromHeaders, hnb]

/-- Witness for C10 at a concrete input: a `Basic ...` header falls
through to the environment tiers (here `OCI_TOKEN`). -/
theorem non_bearer_authorization_header_ignored_witness :
    mainpkg.createOCIClientFromHeaders (sampleHeaders "Basic dXNlcg==")
        (sampleEnv "envtok" "" "") =
      mainpkg.createOCIClientFromHeaders
        ⟨fun k => if k = "Authorization" then "" else (sampleHeaders "Basic dXNlcg==").get k⟩
        (sampleEnv "envtok" "" "") := by
  have h := non_bearer_authorization_header_ignored
    ((sampleHeaders "Basic dXNlcg==").get) (sampleEnv "envtok" "" "")
    (by decide) (by decide)
  exact h

/-- The model of `strconv.Atoi` rejects the empty string. -/
theorem goAtoi_empty :
    mainpkg.goAtoi "" = .error "strconv.Atoi: parsing \"\": invalid syntax" := by
  decide

/-- Claim C9: listen-port resolution returns the value of `MCP_PORT` when
it parses as an integer in `[0, 65535]`; returns 8080 silently when the
variable is unset/empty; logs and returns 8080 when it is non-numeric or
out of range; and the returned port is always valid (it never fails). -/
theorem mcp_port_resolution (env : mainpkg.ProcEnv) :
    (env.getenv "MCP_PORT" = "" → mainpkg.getMCPServerPort env = (8080, none))
  ∧ (∀ n : Int, mainpkg.goAtoi (env.getenv "MCP_PORT") = .ok n →
      0 ≤ n → n ≤ 65535 → mainpkg.getMCPServerPort env = (n, none))
  ∧ (∀ e : String, env.getenv "MCP_PORT" ≠ "" →
      mainpkg.goAtoi (env.getenv "MCP_PORT") = .error e →
      mainpkg.getMCPServerPort env =
        (8080, some ("Invalid MCP_PORT value: " ++ env.getenv "MCP_PORT" ++
          " (must be a valid number), using default port 8080")))
  ∧ (∀ n : Int, mainpkg.goAtoi (env.getenv "MCP_PORT") = .ok n →
      (n < 0 ∨ 65535 < n) →
      mainpkg.getMCPServerPort env =
        (8080, some ("Invalid MCP_PORT value: " ++ env.getenv "MCP_PORT" ++
          " (must be between 0 and 65535), using default port 8080")))
  ∧ mainpkg.validatePort (mainpkg.getMCPServerPort env).1 = true := by
  refine ⟨?_, ?_, ?_, ?_, ?_⟩
  · intro h
    simp [mainpkg.getMCPServerPort, h]
  · intro n hok h0 h65
    have hne : env.getenv "MCP_PORT" ≠ "" := by
      intro h
      rw [h, goAtoi_empty] at hok
      simp at hok
    simp [mainpkg.getMCPServerPort, hne, hok, mainpkg.validatePort, h0, h65]
  · intro e hne herr
    simp [mainpkg.getMCPServerPort, hne, herr]
  · intro n hok hrange
    have hne : env.getenv "MCP_PORT" ≠ "" := by
      intro h
      rw [h, goAtoi_empty] at hok
      simp at hok
    have hnv : ¬(0 ≤ n ∧ n ≤ 65535) := by omega
    simp [mainpkg.getMCPServerPort, hne, hok, mainpkg.validatePort, hnv]
  · by_cases h : env.getenv "MCP_PORT" = ""
    · simp [mainpkg.getMCPServerPort, h, mainpkg.validatePort]
    · cases hA : mainpkg.goAtoi (env.getenv "MCP_PORT") with
      | error e => simp [mainpkg.getMCPServerPort, h, hA, mainpkg.validatePort]
      | ok n =>
          by_cases hv : mainpkg.validatePort n = true
          · simp [mainpkg.getMCPServerPort, h, hA, hv]
          · have hnv : ¬(0 ≤ n ∧ n ≤ 65535) := by
              simpa [mainpkg.validatePort] using hv
            simp [mainpkg.getMCPServerPort, h, hA, hnv, mainpkg.validatePort]

/-- Witness for C9 at concrete inputs: `MCP_PORT=9090` resolves to 9090
with no log line. -/
theorem mcp_port_resolution_witness :
    mainpkg.goAtoi ((portEnv "9090").getenv "MCP_PORT") = .ok 9090 ∧
    mainpkg.getMCPServerPort (portEnv "9090") = (9090, none) :=
  ⟨by decide,
   (mcp_port_resolution (portEnv "9090")).2.1 9090 (by decide) (by decide) (by decide)⟩

theorem strContains_of_eq_append {s pat rest : String}
    (h : s = pat ++ rest) : strContains s pat = true :=
  h ▸ strContains_append_left pat rest

theorem GetImage_parse_error (lib : oci.RegistryLib) (c : oci.Client)
    (now : Nat) (ref e : String) (hp : lib.parseReference ref = .error e) :
    ∀ ctx : oci.GoCtx,
      oci.GetImage lib c ctx now ref =
        (.error ("parsing image reference: " ++ e), []) := by
  intro ctx
  simp [oci.GetImage, hp]

/-- Claim C4: for every image reference string the parser rejects,
`GetImage`, `GetImageManifest` and `GetImageConfig` each return an error
whose message contains "parsing image reference", and no registry fetch
is attempted (the call trace is empty). -/
theorem malformed_image_reference_rejected
    (lib : oci.RegistryLib) (c : oci.Client) (ctx : oci.GoCtx) (now : Nat)
    (ref e : String) (hp : lib.parseReference ref = .error e) :
    oci.GetImage lib c ctx now ref =
      (.error ("parsing image reference: " ++ e), [])
  ∧ oci.GetImageManifest lib c ctx now ref =
      (.error ("parsing image reference: " ++ e), [])
  ∧ oci.GetImageConfig lib c ctx now ref =
      (.error ("parsing image reference: " ++ e), [])
  ∧ strContains ("parsing image reference: " ++ e) "parsing image reference" = true := by
  have hsplit : ("parsing image reference: " ++ e : String) =
      "parsing image reference" ++ (": " ++ e) := by
    rw [← String.append_assoc]
    congr 1
  refine ⟨GetImage_parse_error lib c now ref e hp ctx, ?_, ?_,
    strContains_of_eq_append hsplit⟩
  · simp [oci.GetImageManifest, GetImage_parse_error lib c now ref e hp]
  · simp [oci.GetImageConfig, GetImage_parse_error lib c now ref e hp]

/-- Witness for C4 at a concrete input: an oracle that rejects
`invalid:reference:format` yields the "parsing image reference" error on
all three operations with no fetch. -/
theorem malformed_image_reference_rejected_witness :
    libParseFail.parseReference "invalid:reference:format" =
      .error "could not parse reference" ∧
    oci.GetImageManifest libParseFail (oci.NewClient []) ⟨none⟩ 0 "invalid:reference:format" =
      (.error ("parsing image reference: " ++ "could not parse reference"), []) :=
  ⟨rfl,
   (malformed_image_reference_rejected libParseFail (oci.NewClient []) ⟨none⟩ 0
      "invalid:reference:format" "could not parse reference" rfl).2.1⟩

/-- Claim C5: when the repository name parses and the remote listing call
fails (a malformed repository against an unreachable or invalid host),
`ListTags` fails with an error whose message contains "listing tags". -/
theorem list_tags_remote_failure_message
    (lib : oci.RegistryLib) (c : oci.Client) (ctx : oci.GoCtx) (now : Nat)
    (repoName repo e : String)
    (hp : lib.newRepository repoName = .ok repo)
    (hl : lib.remoteList c.options
        (oci.GoCtx.withTimeout oci.GoCtx.background now oci.defaultTimeout) repo =
        .error e) :
    (oci.ListTags lib c ctx now repoName).1 = .error ("listing tags: " ++ e)
  ∧ strContains ("listing tags: " ++ e) "listing tags" = true := by
  have hsplit : ("listing tags: " ++ e : String) = "listing tags" ++ (": " ++ e) := by
    rw [← String.append_assoc]
    congr 1
  refine ⟨?_, strContains_of_eq_append hsplit⟩
  simp [oci.ListTags, hp, hl]

/-- Witness for C5 at a concrete input: `invalid/repo/format` parses as a
repository, the listing call fails, and the error carries
"listing tags". -/
theorem list_tags_remote_failure_message_witness :
    (oci.ListTags libRemoteFail (oci.NewClient []) ⟨none⟩ 0 "invalid/repo/format").1 =
      .error ("listing tags: " ++ "connection refused") :=
  (list_tags_remote_failure_message libRemoteFail (oci.NewClient []) ⟨none⟩ 0
      "invalid/repo/format" "invalid/repo/format" "connection refused" rfl rfl).1

theorem GetImage_ctx_calls (lib : oci.RegistryLib) (c : oci.Client)
    (ctx : oci.GoCtx) (now : Nat) (ref : String) :
    ∀ call ∈ (oci.GetImage lib c ctx now ref).2,
      call.ctxOf = oci.GoCtx.withTimeout oci.GoCtx.background now oci.defaultTimeout := by
  intro call hcall
  simp only [oci.GetImage] at hcall
  split at hcall
  · simp at hcall
  · split at hcall
    · simp at hcall
      subst hcall
      rfl
    · simp at hcall
      subst hcall
      rfl

theorem GetImage_ctx_irrelevant (lib : oci.RegistryLib) (c : oci.Client)
    (ctx ctx' : oci.GoCtx) (now : Nat) (ref : String) :
    oci.GetImage lib c ctx now ref = oci.GetImage lib c ctx' now ref := rfl

theorem GetImageManifest_calls_sub (lib : oci.RegistryLib) (c : oci.Client)
    (ctx : oci.GoCtx) (now : Nat) (ref : String) :
    ∀ call ∈ (oci.GetImageManifest lib c ctx now ref).2,
      call ∈ (oci.GetImage lib c ctx now ref).2 := by
  intro call hcall
  simp only [oci.GetImageManifest] at hcall
  rw [GetImage_ctx_irrelevant lib c ctx
    (oci.GoCtx.withTimeout oci.GoCtx.background now oci.defaultTimeout) now ref]
  split at hcall
  next heq =>
    rw [heq]
    exact hcall
  next img tr heq =>
    rw [heq]
    split at hcall <;> exact hcall

theorem GetImageConfig_calls_sub (lib : oci.RegistryLib) (c : oci.Client)
    (ctx : oci.GoCtx) (now : Nat) (ref : String) :
    ∀ call ∈ (oci.GetImageConfig lib c ctx now ref).2,
      call ∈ (oci.GetImage lib c ctx now ref).2 := by
  intro call hcall
  simp only [oci.GetImageConfig] at hcall
  rw [GetImage_ctx_irrelevant lib c ctx
    (oci.GoCtx.withTimeout oci.GoCtx.background now oci.defaultTimeout) now ref]
  split at hcall
  next heq =>
    rw [heq]
    exact hcall
  next img tr heq =>
    rw [heq]
    split at hcall <;> exact hcall

theorem ListTags_ctx_calls (lib : oci.RegistryLib) (c : oci.Client)
    (ctx : oci.GoCtx) (now : Nat) (repoName : String) :
    ∀ call ∈ (oci.ListTags lib c ctx now repoName).2,
      call.ctxOf = oci.GoCtx.withTimeout oci.GoCtx.background now oci.defaultTimeout := by
  intro call hcall
  simp only [oci.ListTags] at hcall
  split at hcall
  · simp at hcall
  · split at hcall
    · simp at hcall
      subst hcall
      rfl
    · simp at hcall
      subst hcall
      rfl

/-- Claim C8: every registry operation issues its outbound remote call
under a context built with the fixed 30-second timeout from a fresh
`context.Background()` (deadline exactly `now + 30s`), and the result is
independent of the caller-supplied context — no deadline is inherited.
The timeout bound on blocking is modelled by the deadline carried on
every outbound call. -/
theorem registry_calls_bounded_by_timeout
    (lib : oci.RegistryLib) (c : oci.Client) (ctx ctx' : oci.GoCtx) (now : Nat)
    (ref repoName : String) :
    oci.defaultTimeout = 30 * oci.timeSecond
  ∧ (oci.GoCtx.withTimeout oci.GoCtx.background now oci.defaultTimeout).deadline =
      some (now + 30 * oci.timeSecond)
  ∧ (∀ call ∈ (oci.GetImage lib c ctx now ref).2,
      call.ctxOf = oci.GoCtx.withTimeout oci.GoCtx.background now oci.defaultTimeout)
  ∧ (∀ call ∈ (oci.GetImageManifest lib c ctx now ref).2,
      call.ctxOf = oci.GoCtx.withTimeout oci.GoCtx.background now oci.defaultTimeout)
  ∧ (∀ call ∈ (oci.GetImageConfig lib c ctx now ref).2,
      call.ctxOf = oci.GoCtx.withTimeout oci.GoCtx.background now oci.defaultTimeout)
  ∧ (∀ call ∈ (oci.ListTags lib c ctx now repoName).2,
      call.ctxOf = oci.GoCtx.withTimeout oci.GoCtx.background now oci.defaultTimeout)
  ∧ oci.GetImage lib c ctx now ref = oci.GetImage lib c ctx' now ref
  ∧ oci.GetImageManifest lib c ctx now ref = oci.GetImageManifest lib c ctx' now ref
  ∧ oci.GetImageConfig lib c ctx now ref = oci.GetImageConfig lib c ctx' now ref
  ∧ oci.ListTags lib c ctx now repoName = oci.ListTags lib c ctx' now repoName := by
  refine ⟨rfl, rfl, GetImage_ctx_calls lib c ctx now ref, ?_, ?_,
    ListTags_ctx_calls lib c ctx now repoName, rfl, rfl, rfl, rfl⟩
  · intro call hcall
    exact GetImage_ctx_calls lib c ctx now ref call
      (GetImageManifest_calls_sub lib c ctx now ref call hcall)
  · intro call hcall
    exact GetImage_ctx_calls lib c ctx now ref call
      (GetImageConfig_calls_sub lib c ctx now ref call hcall)

/-- Witness for C8 at a concrete input: the fetch performed by `GetImage`
for `alpine` under a caller context with a 5 ns deadline still carries the
fresh 30-second background deadline, and the result equals the one under
a deadline-free caller context. -/
theorem registry_calls_bounded_by_timeout_witness :
    (oci.RegistryCall.image [] (oci.GoCtx.withTimeout oci.GoCtx.background 0
        oci.defaultTimeout) "alpine").ctxOf =
      oci.GoCtx.withTimeout oci.GoCtx.background 0 oci.defaultTimeout ∧
    oci.GetImage libOk (oci.NewClient []) ⟨some 5⟩ 0 "alpine" =
      oci.GetImage libOk (oci.NewClient []) ⟨none⟩ 0 "alpine" :=
  ⟨(registry_calls_bounded_by_timeout libOk (oci.NewClient []) ⟨some 5⟩ ⟨none⟩ 0
      "alpine" "repo").2.2.1 _ (by decide),
   (registry_calls_bounded_by_timeout libOk (oci.NewClient []) ⟨some 5⟩ ⟨none⟩ 0
      "alpine" "repo").2.2.2.2.2.2.1⟩

/-- Claim C3: a tool invocation whose required string argument is absent
or empty yields the `"<argument_name> is required"` error result, makes
no registry call (empty trace), and returns a nil Go error. -/
theorem missing_required_argument_rejected
    (lib : oci.RegistryLib) (c : oci.Client)
    (mInfo : List (String × mcp.JVal) → Except String String)
    (mTags : List String → Except String String)
    (mMan : oci.Manifest → Except String String)
    (mCfg : oci.ConfigFile → Except String String)
    (ctx : oci.GoCtx) (now : Nat) (req : mcp.CallToolRequest) :
    (req.parseString "image_ref" = "" →
      mcp.GetImageInfo lib c mInfo ctx now req =
        ⟨mcp.NewToolResultError "image_ref is required", none, []⟩
      ∧ mcp.GetImageManifest lib c mMan ctx now req =
        ⟨mcp.NewToolResultError "image_ref is required", none, []⟩
      ∧ mcp.GetImageConfig lib c mCfg ctx now req =
        ⟨mcp.NewToolResultError "image_ref is required", none, []⟩)
  ∧ (req.parseString "repository" = "" →
      mcp.ListTags lib c mTags ctx now req =
        ⟨mcp.NewToolResultError "repository is required", none, []⟩)
  ∧ strContains (mcp.NewToolResultError "image_ref is required").text
      "image_ref is required" = true
  ∧ strContains (mcp.NewToolResultError "repository is required").text
      "repository is required" = true := by
  refine ⟨?_, ?_, by decide, by decide⟩
  · intro h
    refine ⟨?_, ?_, ?_⟩
    · simp [mcp.GetImageInfo, h]
    · simp [mcp.GetImageManifest, h]
    · simp [mcp.GetImageConfig, h]
  · intro h
    simp [mcp.ListTags, h]

/-- Witness for C3 at a concrete input: a request with no arguments is
rejected by `get_image_info` with the required-argument error, a nil Go
error and no registry call. -/
theorem missing_required_argument_rejected_witness :
    mcp.GetImageInfo libOk (oci.NewClient []) mcp.goMarshalInfo ⟨none⟩ 0 emptyReq =
      ⟨mcp.NewToolResultError "image_ref is required", none, []⟩ :=
  ((missing_required_argument_rejected libOk (oci.NewClient []) mcp.goMarshalInfo
      mcp.goMarshalTags (fun _ => .ok "") (fun _ => .ok "") ⟨none⟩ 0 emptyReq).1
    (by decide)).1

/-- Claim C6: a successful `list_tags` with an empty tag sequence yields
the plain message `No tags found for repository <repo>` (not an error,
not a JSON block); a non-empty sequence yields the JSON array of the tags
in the order the registry returned them. -/
theorem list_tags_empty_and_order
    (lib : oci.RegistryLib) (c : oci.Client) (ctx : oci.GoCtx) (now : Nat)
    (req : mcp.CallToolRequest) (repo : String) (tags : List String)
    (hrepo : req.parseString "repository" = repo)
    (hne : repo ≠ "")
    (hok : (oci.ListTags lib c ctx now repo).1 = .ok tags) :
    (tags = [] →
      mcp.ListTags lib c mcp.goMarshalTags ctx now req =
        ⟨mcp.NewToolResultText ("No tags found for repository " ++ repo), none,
          (oci.ListTags lib c ctx now repo).2⟩)
  ∧ (tags ≠ [] →
      mcp.ListTags lib c mcp.goMarshalTags ctx now req =
        ⟨mcp.NewToolResultText ("Tags for " ++ repo ++ ":\n\n```json\n" ++
            mcp.renderTagsIndent tags ++ "\n```"), none,
          (oci.ListTags lib c ctx now repo).2⟩)
  ∧ (mcp.NewToolResultText ("No tags found for repository " ++ repo)).isError = false
  ∧ (tags ≠ [] →
      mcp.renderTagsIndent tags =
        "[\n" ++
          mcp.joinWith ",\n" (tags.map (fun t => "  \"" ++ mcp.escapeString t ++ "\"")) ++
          "\n]") := by
  obtain ⟨tr, hpair⟩ : ∃ tr, oci.ListTags lib c ctx now repo = (.ok tags, tr) :=
    ⟨(oci.ListTags lib c ctx now repo).2, by rw [← hok]⟩
  refine ⟨?_, ?_, rfl, ?_⟩
  · intro htags
    subst htags
    simp [mcp.ListTags, hrepo, hne, hpair]
  · intro htags
    simp [mcp.ListTags, hrepo, hne, hpair, htags, mcp.goMarshalTags,
      List.length_eq_zero]
  · intro htags
    simp [mcp.renderTagsIndent, htags]

/-- Witness for C6 at concrete inputs: an empty tag list produces the
plain message; a two-tag list produces the JSON array in registry order. -/
theorem list_tags_empty_and_order_witness :
    mcp.ListTags libEmptyTags (oci.NewClient []) mcp.goMarshalTags ⟨none⟩ 0
        (reqWith "repository" "myrepo") =
      ⟨mcp.NewToolResultText ("No tags found for repository " ++ "myrepo"), none,
        (oci.ListTags libEmptyTags (oci.NewClient []) ⟨none⟩ 0 "myrepo").2⟩ ∧
    mcp.ListTags libOk (oci.NewClient []) mcp.goMarshalTags ⟨none⟩ 0
        (reqWith "repository" "myrepo") =
      ⟨mcp.NewToolResultText ("Tags for " ++ "myrepo" ++ ":\n\n```json\n" ++
          mcp.renderTagsIndent ["1.0", "latest"] ++ "\n```"), none,
        (oci.ListTags libOk (oci.NewClient []) ⟨none⟩ 0 "myrepo").2⟩ :=
  ⟨(list_tags_empty_and_order libEmptyTags (oci.NewClient []) ⟨none⟩ 0
      (reqWith "repository" "myrepo") "myrepo" [] (by decide) (by decide) (by decide)).1
    rfl,
   (list_tags_empty_and_order libOk (oci.NewClient []) ⟨none⟩ 0
      (reqWith "repository" "myrepo") "myrepo" ["1.0", "latest"] (by decide) (by decide)
      (by decide)).2.1 (by decide)⟩

theorem GetImageInfo_goError_none (lib : oci.RegistryLib) (c : oci.Client)
    (mInfo : List (String × mcp.JVal) → Except String String)
    (ctx : oci.GoCtx) (now : Nat) (req : mcp.CallToolRequest) :
    (mcp.GetImageInfo lib c mInfo ctx now req).goError = none := by
  simp only [mcp.GetImageInfo]
  repeat' split
  all_goals rfl

theorem ListTagsHandler_goError_none (lib : oci.RegistryLib) (c : oci.Client)
    (mTags : List String → Except String String)
    (ctx : oci.GoCtx) (now : Nat) (req : mcp.CallToolRequest) :
    (mcp.ListTags lib c mTags ctx now req).goError = none := by
  simp only [mcp.ListTags]
  repeat' split
  all_goals rfl

theorem GetImageManifestHandler_goError_none (lib : oci.RegistryLib) (c : oci.Client)
    (mMan : oci.Manifest → Except String String)
    (ctx : oci.GoCtx) (now : Nat) (req : mcp.CallToolRequest) :
    (mcp.GetImageManifest lib c mMan ctx now req).goError = none := by
  simp only [mcp.GetImageManifest]
  repeat' split
  all_goals rfl

theorem GetImageConfigHandler_goError_none (lib : oci.RegistryLib) (c : oci.Client)
    (mCfg : oci.ConfigFile → Except String String)
    (ctx : oci.GoCtx) (now : Nat) (req : mcp.CallToolRequest) :
    (mcp.GetImageConfig lib c mCfg ctx now req).goError = none := by
  simp only [mcp.GetImageConfig]
  repeat' split
  all_goals rfl

/-- Claim C7: for every tool invocation and every failure mode (missing
argument, parse/fetch failure, decode failure, serialization failure)
each handler returns a well-formed error result carrying a short label
plus the underlying error message, and the Go-level error is always nil:
no failure crosses the dispatcher boundary as a transport error. -/
theorem dispatcher_failures_are_results
    (lib : oci.RegistryLib) (c : oci.Client)
    (mInfo : List (String × mcp.JVal) → Except String String)
    (mTags : List String → Except String String)
    (mMan : oci.Manifest → Except String String)
    (mCfg : oci.ConfigFile → Except String String)
    (ctx : oci.GoCtx) (now : Nat) (req : mcp.CallToolRequest) :
    (mcp.GetImageInfo lib c mInfo ctx now req).goError = none
  ∧ (mcp.ListTags lib c mTags ctx now req).goError = none
  ∧ (mcp.GetImageManifest lib c mMan ctx now req).goError = none
  ∧ (mcp.GetImageConfig lib c mCfg ctx now req).goError = none
  ∧ (req.parseString "image_ref" = "" →
      (mcp.GetImageInfo lib c mInfo ctx now req).result =
        mcp.NewToolResultError "image_ref is required"
      ∧ (mcp.GetImageManifest lib c mMan ctx now req).result =
        mcp.NewToolResultError "image_ref is required"
      ∧ (mcp.GetImageConfig lib c mCfg ctx now req).result =
        mcp.NewToolResultError "image_ref is required")
  ∧ (req.parseString "repository" = "" →
      (mcp.ListTags lib c mTags ctx now req).result =
        mcp.NewToolResultError "repository is required")
  ∧ (∀ e, req.parseString "image_ref" ≠ "" →
      (oci.GetImage lib c ctx now (req.parseString "image_ref")).1 = .error e →
      (mcp.GetImageInfo lib c mInfo ctx now req).result =
        mcp.NewToolResultErrorFromErr "failed to get image" e)
  ∧ (∀ img e, req.parseString "image_ref" ≠ "" →
      (oci.GetImage lib c ctx now (req.parseString "image_ref")).1 = .ok img →
      img.manifestResult = .error e →
      (mcp.GetImageInfo lib c mInfo ctx now req).result =
        mcp.NewToolResultErrorFromErr "failed to get manifest" e)
  ∧ (∀ img manifest e, req.parseString "image_ref" ≠ "" →
      (oci.GetImage lib c ctx now (req.parseString "image_ref")).1 = .ok img →
      img.manifestResult = .ok manifest →
      img.configFileResult = .error e →
      (mcp.GetImageInfo lib c mInfo ctx now req).result =
        mcp.NewToolResultErrorFromErr "failed to get config" e)
  ∧ (∀ img manifest config e, req.parseString "image_ref" ≠ "" →
      (oci.GetImage lib c ctx now (req.parseString "image_ref")).1 = .ok img →
      img.manifestResult = .ok manifest →
      img.configFileResult = .ok config →
      mInfo (mcp.imageInfoResult manifest config) = .error e →
      (mcp.GetImageInfo lib c mInfo ctx now req).result =
        mcp.NewToolResultErrorFromErr "failed to marshal result" e)
  ∧ (∀ e, req.parseString "repository" ≠ "" →
      (oci.ListTags lib c ctx now (req.parseString "repository")).1 = .error e →
      (mcp.ListTags lib c mTags ctx now req).result =
        mcp.NewToolResultErrorFromErr "failed to list tags" e)
  ∧ (∀ tags e, req.parseString "repository" ≠ "" →
      (oci.ListTags lib c ctx now (req.parseString "repository")).1 = .ok tags →
      tags.length ≠ 0 →
      mTags tags = .error e →
      (mcp.ListTags lib c mTags ctx now req).result =
        mcp.NewToolResultErrorFromErr "failed to marshal result" e)
  ∧ (∀ e, req.parseString "image_ref" ≠ "" →
      (oci.GetImageManifest lib c ctx now (req.parseString "image_ref")).1 = .error e →
      (mcp.GetImageManifest lib c mMan ctx now req).result =
        mcp.NewToolResultErrorFromErr "failed to get manifest" e)
  ∧ (∀ manifest e, req.parseString "image_ref" ≠ "" →
      (oci.GetImageManifest lib c ctx now (req.parseString "image_ref")).1 = .ok manifest →
      mMan manifest = .error e →
      (mcp.GetImageManifest lib c mMan ctx now req).result =
        mcp.NewToolResultErrorFromErr "failed to marshal result" e)
  ∧ (∀ e, req.parseString "image_ref" ≠ "" →
      (oci.GetImageConfig lib c ctx now (req.parseString "image_ref")).1 = .error e →
      (mcp.GetImageConfig lib c mCfg ctx now req).result =
        mcp.NewToolResultErrorFromErr "failed to get config" e)
  ∧ (∀ config e, req.parseString "image_ref" ≠ "" →
      (oci.GetImageConfig lib c ctx now (req.parseString "image_ref")).1 = .ok config →
      mCfg config = .error e →
      (mcp.GetImageConfig lib c mCfg ctx now req).result =
        mcp.NewToolResultErrorFromErr "failed to marshal result" e) := by
  refine ⟨GetImageInfo_goError_none lib c mInfo ctx now req,
    ListTagsHandler_goError_none lib c mTags ctx now req,
    GetImageManifestHandler_goError_none lib c mMan ctx now req,
    GetImageConfigHandler_goError_none lib c mCfg ctx now req,
    ?_, ?_, ?_, ?_, ?_, ?_, ?_, ?_, ?_, ?_, ?_, ?_⟩
  · intro h
    refine ⟨?_, ?_, ?_⟩
    · simp [mcp.GetImageInfo, h]
    · simp [mcp.GetImageManifest, h]
    · simp [mcp.GetImageConfig, h]
  · intro h
    simp [mcp.ListTags, h]
  · intro e hne herr
    obtain ⟨tr, hpair⟩ :
        ∃ tr, oci.GetImage lib c ctx now (req.parseString "image_ref") = (.error e, tr) :=
      ⟨(oci.GetImage lib c ctx now (req.parseString "image_ref")).2, by rw [← herr]⟩
    simp [mcp.GetImageInfo, hne, hpair]
  · intro img e hne hok hman
    obtain ⟨tr, hpair⟩ :
        ∃ tr, oci.GetImage lib c ctx now (req.parseString "image_ref") = (.ok img, tr) :=
      ⟨(oci.GetImage lib c ctx now (req.parseString "image_ref")).2, by rw [← hok]⟩
    simp [mcp.GetImageInfo, hne, hpair, hman]
  · intro img manifest e hne hok hman hcfg
    obtain ⟨tr, hpair⟩ :
        ∃ tr, oci.GetImage lib c ctx now (req.parseString "image_ref") = (.ok img, tr) :=
      ⟨(oci.GetImage lib c ctx now (req.parseString "image_ref")).2, by rw [← hok]⟩
    simp [mcp.GetImageInfo, hne, hpair, hman, hcfg]
  · intro img manifest config e hne hok hman hcfg hmarshal
    obtain ⟨tr, hpair⟩ :
        ∃ tr, oci.GetImage lib c ctx now (req.parseString "image_ref") = (.ok img, tr) :=
      ⟨(oci.GetImage lib c ctx now (req.parseString "image_ref")).2, by rw [← hok]⟩
    simp [mcp.GetImageInfo, hne, hpair, hman, hcfg, hmarshal]
  · intro e hne herr
    obtain ⟨tr, hpair⟩ :
        ∃ tr, oci.ListTags lib c ctx now (req.parseString "repository") = (.error e, tr) :=
      ⟨(oci.ListTags lib c ctx now (req.parseString "repository")).2, by rw [← herr]⟩
    simp [mcp.ListTags, hne, hpair]
  · intro tags e hne hok hlen hmarshal
    obtain ⟨tr, hpair⟩ :
        ∃ tr, oci.ListTags lib c ctx now (req.parseString "repository") = (.ok tags, tr) :=
      ⟨(oci.ListTags lib c ctx now (req.parseString "repository")).2, by rw [← hok]⟩
    simp [mcp.ListTags, hne, hpair, hlen, hmarshal]
  · intro e hne herr
    obtain ⟨tr, hpair⟩ :
        ∃ tr, oci.GetImageManifest lib c ctx now (req.parseString "image_ref") =
          (.error e, tr) :=
      ⟨(oci.GetImageManifest lib c ctx now (req.parseString "image_ref")).2, by rw [← herr]⟩
    simp [mcp.GetImageManifest, hne, hpair]
  · intro manifest e hne hok hmarshal
    obtain ⟨tr, hpair⟩ :
        ∃ tr, oci.GetImageManifest lib c ctx now (req.parseString "image_ref") =
          (.ok manifest, tr) :=
      ⟨(oci.GetImageManifest lib c ctx now (req.parseString "image_ref")).2, by rw [← hok]⟩
    simp [mcp.GetImageManifest, hne, hpair, hmarshal]
  · intro e hne herr
    obtain ⟨tr, hpair⟩ :
        ∃ tr, oci.GetImageConfig lib c ctx now (req.parseString "image_ref") =
          (.error e, tr) :=
      ⟨(oci.GetImageConfig lib c ctx now (req.parseString "image_ref")).2, by rw [← herr]⟩
    simp [mcp.GetImageConfig, hne, hpair]
  · intro config e hne hok hmarshal
    obtain ⟨tr, hpair⟩ :
        ∃ tr, oci.GetImageConfig lib c ctx now (req.parseString "image_ref") =
          (.ok config, tr) :=
      ⟨(oci.GetImageConfig lib c ctx now (req.parseString "image_ref")).2, by rw [← hok]⟩
    simp [mcp.GetImageConfig, hne, hpair, hmarshal]

/-- Witness for C7 at a concrete input: a fetch failure surfaces as an
error result labelled "failed to get image" with a nil Go error. -/
theorem dispatcher_failures_are_results_witness :
    (mcp.GetImageInfo libRemoteFail (oci.NewClient []) mcp.goMarshalInfo ⟨none⟩ 0
        (reqWith "image_ref" "alpine")).goError = none ∧
    (mcp.GetImageInfo libRemoteFail (oci.NewClient []) mcp.goMarshalInfo ⟨none⟩ 0
        (reqWith "image_ref" "alpine")).result =
      mcp.NewToolResultErrorFromErr "failed to get image"
        ("fetching image: " ++ "connection refused") :=
  ⟨(dispatcher_failures_are_results libRemoteFail (oci.NewClient []) mcp.goMarshalInfo
      mcp.goMarshalTags (fun _ => .ok "") (fun _ => .ok "") ⟨none⟩ 0
      (reqWith "image_ref" "alpine")).1,
   (dispatcher_failures_are_results libRemoteFail (oci.NewClient []) mcp.goMarshalInfo
      mcp.goMarshalTags (fun _ => .ok "") (fun _ => .ok "") ⟨none⟩ 0
      (reqWith "image_ref" "alpine")).2.2.2.2.2.2.1
      ("fetching image: " ++ "connection refused") (by decide) (by decide)⟩

theorem natDigits_lt10 {n : Nat} (h : n < 10) : natDigits n = [Nat.digitChar n] := by
  rw [natDigits]
  simp [h]

theorem natDigits_ge10 {n : Nat} (h : ¬n < 10) :
    natDigits n = natDigits (n / 10) ++ [Nat.digitChar (n % 10)] := by
  rw [natDigits]
  simp [h]

theorem digitChar_isDigit : ∀ k, k < 10 → isDigitCh (Nat.digitChar k) = true := by
  decide

theorem toDigitsCore_eq (fuel : Nat) :
    ∀ (n : Nat) (acc : List Char), 0 < fuel → n < 10 ^ fuel →
      Nat.toDigitsCore 10 fuel n acc = natDigits n ++ acc := by
  induction fuel with
  | zero => intro n acc h _; omega
  | succ f ih =>
      intro n acc _ hlt
      simp only [Nat.toDigitsCore]
      by_cases h0 : n / 10 = 0
      · have hn : n < 10 := by omega
        simp [h0, natDigits_lt10 hn, Nat.mod_eq_of_lt hn]
      · have h10 : 10 ≤ n := by omega
        have hf : 0 < f := by
          rcases Nat.eq_zero_or_pos f with hf0 | hf0
          · subst hf0
            simp at hlt
            omega
          · exact hf0
        have hdiv : n / 10 < 10 ^ f := by
          apply Nat.div_lt_of_lt_mul
          have h1 : n < 10 ^ f * 10 := by
            rw [← pow_succ]
            exact hlt
          omega
        rw [if_neg h0, ih (n / 10) (Nat.digitChar (n % 10) :: acc) hf hdiv,
          natDigits_ge10 (show ¬n < 10 by omega)]
        simp

theorem toString_nat_data (n : Nat) : (toString n).data = natDigits n := by
  have h1 : toString n = Nat.repr n := rfl
  have hlt : n < 10 ^ (n + 1) := by
    calc n < 2 ^ n := Nat.lt_two_pow n
    _ ≤ 10 ^ n := Nat.pow_le_pow_left (by omega) n
    _ ≤ 10 ^ (n + 1) := Nat.pow_le_pow_right (by omega) (by omega)
  rw [h1, Nat.repr, Nat.toDigits, toDigitsCore_eq (n + 1) n [] (Nat.succ_pos n) hlt]
  simp [List.asString]

theorem pad2_data (n : Nat) (h : n < 100) :
    ∃ a b, (oci.pad2 n).data = [a, b] ∧ isDigitCh a = true ∧ isDigitCh b = true := by
  by_cases h10 : n < 10
  · refine ⟨'0', Nat.digitChar n, ?_, by decide, digitChar_isDigit n h10⟩
    simp only [oci.pad2, if_pos h10]
    rw [String.data_append, toString_nat_data, natDigits_lt10 h10]
    rfl
  · refine ⟨Nat.digitChar (n / 10), Nat.digitChar (n % 10), ?_,
      digitChar_isDigit _ (by omega), digitChar_isDigit _ (Nat.mod_lt _ (by omega))⟩
    simp only [oci.pad2, if_neg h10]
    rw [toString_nat_data, natDigits_ge10 h10,
      natDigits_lt10 (show n / 10 < 10 by omega)]
    rfl

theorem pad4_data (n : Nat) (h : n < 10000) :
    ∃ a b c d, (oci.pad4 n).data = [a, b, c, d] ∧ isDigitCh a = true ∧
      isDigitCh b = true ∧ isDigitCh c = true ∧ isDigitCh d = true := by
  by_cases h10 : n < 10
  · refine ⟨'0', '0', '0', Nat.digitChar n, ?_, by decide, by decide, by decide,
      digitChar_isDigit n h10⟩
    simp only [oci.pad4, if_pos h10]
    rw [String.data_append, toString_nat_data, natDigits_lt10 h10]
    rfl
  · by_cases h100 : n < 100
    · refine ⟨'0', '0', Nat.digitChar (n / 10), Nat.digitChar (n % 10), ?_, by decide,
        by decide, digitChar_isDigit _ (by omega),
        digitChar_isDigit _ (Nat.mod_lt _ (by omega))⟩
      simp only [oci.pad4, if_neg h10, if_pos h100]
      rw [String.data_append, toString_nat_data, natDigits_ge10 h10,
        natDigits_lt10 (show n / 10 < 10 by omega)]
      rfl
    · by_cases h1000 : n < 1000
      · refine ⟨'0', Nat.digitChar (n / 10 / 10), Nat.digitChar (n / 10 % 10),
          Nat.digitChar (n % 10), ?_, by decide, digitChar_isDigit _ (by omega),
          digitChar_isDigit _ (Nat.mod_lt _ (by omega)),
          digitChar_isDigit _ (Nat.mod_lt _ (by omega))⟩
        simp only [oci.pad4, if_neg h10, if_neg h100, if_pos h1000]
        rw [String.data_append, toString_nat_data, natDigits_ge10 h10,
          natDigits_ge10 (show ¬n / 10 < 10 by omega),
          natDigits_lt10 (show n / 10 / 10 < 10 by omega)]
        rfl
      · refine ⟨Nat.digitChar (n / 10 / 10 / 10), Nat.digitChar (n / 10 / 10 % 10),
          Nat.digitChar (n / 10 % 10), Nat.digitChar (n % 10), ?_,
          digitChar_isDigit _ (by omega),
          digitChar_isDigit _ (Nat.mod_lt _ (by omega)),
          digitChar_isDigit _ (Nat.mod_lt _ (by omega)),
          digitChar_isDigit _ (Nat.mod_lt _ (by omega))⟩
        simp only [oci.pad4, if_neg h10, if_neg h100, if_neg h1000]
        rw [toString_nat_data, natDigits_ge10 h10,
          natDigits_ge10 (show ¬n / 10 < 10 by omega),
          natDigits_ge10 (show ¬n / 10 / 10 < 10 by omega),
          natDigits_lt10 (show n / 10 / 10 / 10 < 10 by omega)]
        rfl

theorem tzPart_shape : ∀ tz : Option (Bool × Nat × Nat),
    (∀ neg hh mm, tz = some (neg, hh, mm) → hh < 100 ∧ mm < 100) →
    tzShape (oci.tzPart tz).data = true := by
  intro tz hb
  match tz with
  | none => decide
  | some (neg, hh, mm) =>
      obtain ⟨hh100, mm100⟩ := hb neg hh mm rfl
      obtain ⟨a, b, hab, ha, hb2⟩ := pad2_data hh hh100
      obtain ⟨c, d, hcd, hc, hd⟩ := pad2_data mm mm100
      have hdata : (oci.tzPart (some (neg, hh, mm))).data =
          [(if neg then '-' else '+'), a, b, ':', c, d] := by
        show ((if neg then "-" else "+") ++ oci.pad2 hh ++ ":" ++ oci.pad2 mm).data = _
        rw [String.data_append, String.data_append, String.data_append, hab, hcd]
        cases neg <;> rfl
      rw [hdata]
      simp only [tzShape, decide_eq_true_eq]
      refine ⟨?_, trivial, ha, hb2, hc, hd⟩
      cases neg
      · exact Or.inl rfl
      · exact Or.inr rfl

theorem formatGoTime_rfc3339 (t : oci.GoTime)
    (hy : t.year < 10000) (hmo : t.month < 100) (hda : t.day < 100)
    (hho : t.hour < 100) (hmi : t.minute < 100) (hse : t.second < 100)
    (htz : ∀ neg hh mm, t.tz = some (neg, hh, mm) → hh < 100 ∧ mm < 100) :
    rfc3339Shape (oci.formatGoTime t) = true := by
  obtain ⟨y1, y2, y3, y4, hYd, hY1, hY2, hY3, hY4⟩ := pad4_data t.year hy
  obtain ⟨a1, a2, hAd, hA1, hA2⟩ := pad2_data t.month hmo
  obtain ⟨b1, b2, hBd, hB1, hB2⟩ := pad2_data t.day hda
  obtain ⟨c1, c2, hCd, hC1, hC2⟩ := pad2_data t.hour hho
  obtain ⟨d1, d2, hDd, hD1, hD2⟩ := pad2_data t.minute hmi
  obtain ⟨e1, e2, hEd, hE1, hE2⟩ := pad2_data t.second hse
  have hdata : (oci.formatGoTime t).data =
      y1 :: y2 :: y3 :: y4 :: '-' :: a1 :: a2 :: '-' :: b1 :: b2 :: 'T' ::
        c1 :: c2 :: ':' :: d1 :: d2 :: ':' :: e1 :: e2 :: (oci.tzPart t.tz).data := by
    show (oci.pad4 t.year ++ "-" ++ oci.pad2 t.month ++ "-" ++ oci.pad2 t.day ++ "T" ++
      oci.pad2 t.hour ++ ":" ++ oci.pad2 t.minute ++ ":" ++ oci.pad2 t.second ++
      oci.tzPart t.tz).data = _
    simp only [String.data_append]
    rw [hYd, hAd, hBd, hCd, hDd, hEd]
    rfl
  rw [show rfc3339Shape (oci.formatGoTime t) =
      (match (oci.formatGoTime t).data with
       | y1 :: y2 :: y3 :: y4 :: sep1 :: mo1 :: mo2 :: sep2 :: da1 :: da2 :: tt ::
           h1 :: h2 :: sep3 :: mi1 :: mi2 :: sep4 :: s1 :: s2 :: tz =>
           (isDigitCh y1 ∧ isDigitCh y2 ∧ isDigitCh y3 ∧ isDigitCh y4 ∧ sep1 = '-' ∧
             isDigitCh mo1 ∧ isDigitCh mo2 ∧ sep2 = '-' ∧ isDigitCh da1 ∧
             isDigitCh da2 ∧ tt = 'T' ∧ isDigitCh h1 ∧ isDigitCh h2 ∧ sep3 = ':' ∧
             isDigitCh mi1 ∧ isDigitCh mi2 ∧ sep4 = ':' ∧ isDigitCh s1 ∧
             isDigitCh s2 ∧ tzShape tz : Bool)
       | _ => false) from rfl, hdata]
  simp only [decide_eq_true_eq]
  refine ⟨hY1, hY2, hY3, hY4, trivial, hA1, hA2, trivial, hB1, hB2, trivial,
    hC1, hC2, trivial, hD1, hD2, trivial, hE1, hE2, ?_⟩
  exact tzPart_shape t.tz htz

/-- Claim C2: every successful `get_image_info` invocation produces a
text block holding a JSON object with exactly the six keys digest, size,
architecture, os, created and layers; `layers` is the manifest's layer
count, `digest` and `size` come from the manifest's config descriptor,
`created` is the config's creation timestamp in RFC3339 form, and the
output depends on nothing else of the raw manifest/config. -/
theorem get_image_info_summary
    (lib : oci.RegistryLib) (c : oci.Client) (ctx : oci.GoCtx) (now : Nat)
    (req : mcp.CallToolRequest) (img : oci.Image)
    (manifest : oci.Manifest) (config : oci.ConfigFile)
    (hne : req.parseString "image_ref" ≠ "")
    (himg : (oci.GetImage lib c ctx now (req.parseString "image_ref")).1 = .ok img)
    (hman : img.manifestResult = .ok manifest)
    (hcfg : img.configFileResult = .ok config) :
    (mcp.GetImageInfo lib c mcp.goMarshalInfo ctx now req).result =
      mcp.NewToolResultText ("Image information for " ++ req.parseString "image_ref" ++
        ":\n\n```json\n" ++ mcp.renderObjIndent (mcp.imageInfoResult manifest config) ++
        "\n```")
  ∧ (mcp.imageInfoResult manifest config).map Prod.fst =
      ["digest", "size", "architecture", "os", "created", "layers"]
  ∧ (mcp.sortEntries (mcp.imageInfoResult manifest config)).map Prod.fst =
      ["architecture", "created", "digest", "layers", "os", "size"]
  ∧ (mcp.imageInfoResult manifest config).lookup "digest" =
      some (.jstr manifest.config.digest)
  ∧ (mcp.imageInfoResult manifest config).lookup "size" =
      some (.jint manifest.config.size)
  ∧ (mcp.imageInfoResult manifest config).lookup "architecture" =
      some (.jstr config.architecture)
  ∧ (mcp.imageInfoResult manifest config).lookup "os" = some (.jstr config.os)
  ∧ (mcp.imageInfoResult manifest config).lookup "created" =
      some (.jstr (oci.formatGoTime config.created))
  ∧ (mcp.imageInfoResult manifest config).lookup "layers" =
      some (.jint (manifest.layers.length : Int))
  ∧ (config.created.fieldsInRange = true →
      rfc3339Shape (oci.formatGoTime config.created) = true)
  ∧ (∀ (manifest₂ : oci.Manifest) (config₂ : oci.ConfigFile),
      manifest₂.config = manifest.config →
      manifest₂.layers.length = manifest.layers.length →
      config₂ = config →
      mcp.imageInfoResult manifest₂ config₂ = mcp.imageInfoResult manifest config) := by
  refine ⟨?_, rfl, rfl, rfl, rfl, rfl, rfl, rfl, rfl, ?_, ?_⟩
  · obtain ⟨tr, hpair⟩ :
        ∃ tr, oci.GetImage lib c ctx now (req.parseString "image_ref") = (.ok img, tr) :=
      ⟨(oci.GetImage lib c ctx now (req.parseString "image_ref")).2, by rw [← himg]⟩
    simp [mcp.GetImageInfo, hne, hpair, hman, hcfg, mcp.goMarshalInfo]
  · intro h
    generalize hT : config.created = t at h ⊢
    obtain ⟨y, mo, da, hh, mi, ss, tz⟩ := t
    simp only [oci.GoTime.fieldsInRange, Bool.and_eq_true, decide_eq_true_eq] at h
    obtain ⟨⟨⟨⟨⟨⟨hy, hmo⟩, hda⟩, hhh⟩, hmi⟩, hss⟩, htzb⟩ := h
    refine formatGoTime_rfc3339 ⟨y, mo, da, hh, mi, ss, tz⟩ hy hmo hda hhh hmi hss ?_
    intro neg hh2 mm2 he
    subst he
    simpa using htzb
  · intro manifest₂ config₂ hconf hlen hcfgeq
    subst hcfgeq
    simp [mcp.imageInfoResult, hconf, hlen]

/-- Witness for C2 at a concrete input: on the sample image the summary
has exactly the six keys (in Go's sorted key order after marshalling) and
the formatted creation timestamp is RFC3339-shaped. -/
theorem get_image_info_summary_witness :
    (mcp.GetImageInfo libOk (oci.NewClient []) mcp.goMarshalInfo ⟨none⟩ 0
        (reqWith "image_ref" "alpine:latest")).result =
      mcp.NewToolResultText ("Image information for " ++
        (reqWith "image_ref" "alpine:latest").parseString "image_ref" ++
        ":\n\n```json\n" ++
        mcp.renderObjIndent (mcp.imageInfoResult sampleManifest sampleConfig) ++
        "\n```") ∧
    (mcp.sortEntries (mcp.imageInfoResult sampleManifest sampleConfig)).map Prod.fst =
      ["architecture", "created", "digest", "layers", "os", "size"] ∧
    rfc3339Shape (oci.formatGoTime sampleConfig.created) = true := by
  have h := get_image_info_summary libOk (oci.NewClient []) ⟨none⟩ 0
    (reqWith "image_ref" "alpine:latest") sampleImage sampleManifest sampleConfig
    (by decide) (by decide) rfl rfl
  exact ⟨h.1, h.2.2.1, h.2.2.2.2.2.2.2.2.2.1 (by decide)⟩
